import Mathlib

/-!
Verification development for the caldera pentatomic planner, TCP contact
layer, and IP fact parser.

Each definition is a shallow embedding of a Python function from the
repository; doc comments name the source location. Python dicts keyed by
agent paw are embedded as ordered association lists (insertion order,
unique keys), matching dict semantics for `get`, item assignment and `pop`.
-/

namespace Caldera

/-! ## Planner data model (src/app/planners/pentatomic.py) -/

/-- An ability, identified by its `ability_id` (see `link.ability.ability_id`). -/
structure Ability where
  ability_id : String
deriving DecidableEq, Repr

/-- A candidate link: one concrete application of an ability. -/
structure Link where
  ability : Ability
deriving DecidableEq, Repr

/-- An operation agent; only the stable `paw` identity is used by the planner. -/
structure PAgent where
  paw : String
deriving DecidableEq, Repr

/-- The per-agent cursor map `self.agent_steps : dict[str, int]`. -/
abbrev StepsMap := List (String × Nat)

/-- Python `d.get(k, dflt)`. -/
def dictGetD (d : StepsMap) (k : String) (dflt : Nat) : Nat :=
  match d.find? (fun p => p.1 == k) with
  | some p => p.2
  | none => dflt

/-- Python `d[k] = v`: replaces in place when the key exists, else appends
(insertion order is preserved, as for a Python dict). -/
def dictSet (d : StepsMap) (k : String) (v : Nat) : StepsMap :=
  if d.any (fun p => p.1 == k) then
    d.map (fun p => if p.1 == k then (k, v) else p)
  else
    d ++ [(k, v)]

/-- Python `d.pop(k, None)`: removes the key when present. -/
def dictPop (d : StepsMap) (k : String) : StepsMap :=
  d.filter (fun p => p.1 != k)

/-- Result of `_get_next_atomic_link`: the selected link (if any), the
cursor map after the search (the skip branch assigns
`self.agent_steps[agent.paw] = step + 1` before recursing), and — as ghost
instrumentation for the monotonicity claim — the list of values assigned to
`agent_steps[agent.paw]` during the search, in temporal order. -/
structure SearchOut where
  link : Option Link
  steps : StepsMap
  writes : List Nat
deriving Repr

/-- Python dict comprehension `{link.ability.ability_id: link for link in links}`
followed by `[ab_id]`: later list entries overwrite earlier ones, so the
lookup returns the last link carrying the ability id. -/
def abilDictGet (links : List Link) (ab : String) : Option Link :=
  links.reverse.find? (fun l => l.ability.ability_id == ab)

/-- Embeds `LogicalPlanner._get_next_atomic_link(links, agent, step)`
(src/app/planners/pentatomic.py, lines 64-81), recursion over the suffix
`atomic_ordering[step:]` of the ordering (the source guard
`step >= len(atomic_ordering)` returns `None` exactly when the suffix is
empty, and `atomic_ordering[step]` is the suffix head):
if the ability id at the cursor position is among the candidate ids, return
its link without touching the map; otherwise assign
`agent_steps[paw] = step + 1` and retry at `step + 1`. -/
def getNextAtomicLinkAux (links : List Link) (paw : String) :
    List String → Nat → StepsMap → SearchOut
  | [], _, steps => { link := none, steps := steps, writes := [] }
  | ab :: rest, step, steps =>
    if links.any (fun l => l.ability.ability_id == ab) then
      { link := abilDictGet links ab, steps := steps, writes := [] }
    else
      let out := getNextAtomicLinkAux links paw rest (step + 1) (dictSet steps paw (step + 1))
      { out with writes := (step + 1) :: out.writes }

/-- The search `_get_next_atomic_link` entered at cursor position `step`. -/
def getNextAtomicLink (ordering : List String) (links : List Link) (paw : String)
    (step : Nat) (steps : StepsMap) : SearchOut :=
  getNextAtomicLinkAux links paw (ordering.drop step) step steps

/-- Accumulator threaded through the `for agent in self.operation.agents`
loop of `pentatomic`: the cursor map, the applied links (`links_to_use`,
tagged with the paw of the agent they were applied for), and the ghost log
of every assignment to `agent_steps` as `(paw, value)` pairs in temporal
order. -/
structure BucketAcc where
  steps : StepsMap
  applied : List (String × Link)
  writes : List (String × Nat)
deriving Repr

/-- One agent's turn inside the `pentatomic` bucket loop
(src/app/planners/pentatomic.py, lines 33-46): read
`step = agent_steps.get(paw, 0)`, run the atomic search; on a link, apply
it and assign `agent_steps[paw] = step + 1` (note: `step` is the stale
value read before the search); on no link, `agent_steps.pop(paw, None)`. -/
def processAgent (ordering : List String) (getLinks : String → List Link)
    (acc : BucketAcc) (agent : PAgent) : BucketAcc :=
  let links := getLinks agent.paw
  let step := dictGetD acc.steps agent.paw 0
  let out := getNextAtomicLink ordering links agent.paw step acc.steps
  match out.link with
  | some l =>
    { steps := dictSet out.steps agent.paw (step + 1),
      applied := acc.applied ++ [(agent.paw, l)],
      writes := acc.writes ++ out.writes.map (fun v => (agent.paw, v))
                ++ [(agent.paw, step + 1)] }
  | none =>
    { steps := dictPop out.steps agent.paw,
      applied := acc.applied,
      writes := acc.writes ++ out.writes.map (fun v => (agent.paw, v)) }

/-- Outcome of one `pentatomic` bucket invocation. `waited` records whether
`operation.wait_for_links_completion(links_to_use)` was awaited. -/
structure BucketOut where
  steps : StepsMap
  applied : List (String × Link)
  writes : List (String × Nat)
  next_bucket : Option String
  waited : Bool
deriving Repr

/-- Embeds `LogicalPlanner.pentatomic` (src/app/planners/pentatomic.py,
lines 28-55): for each agent fetch candidate links and select the next
atomic link; apply every selection; if any link was applied, wait for all
of them to complete (the bucket then stays scheduled: `next_bucket` is
unchanged), otherwise set `next_bucket = None`. -/
def pentatomicBucket (ordering : List String) (agents : List PAgent)
    (getLinks : String → List Link) (steps0 : StepsMap)
    (next_bucket : Option String) : BucketOut :=
  let acc := agents.foldl (processAgent ordering getLinks)
    { steps := steps0, applied := [], writes := [] }
  if acc.applied.isEmpty then
    { steps := acc.steps, applied := acc.applied, writes := acc.writes,
      next_bucket := none, waited := false }
  else
    { steps := acc.steps, applied := acc.applied, writes := acc.writes,
      next_bucket := next_bucket, waited := true }

/-- The constructor `LogicalPlanner.__init__` initializes `agent_steps = \x7bagent.paw: 0\x7d`
and `next_bucket = the pentatomic bucket`. -/
def initSteps (agents : List PAgent) : StepsMap :=
  agents.map (fun a => (a.paw, 0))

/-! ## TCP contact layer (src/app/contacts/contact_tcp.py) -/

/-- The decoded handshake profile; only the `executors` string matters for
these claims. -/
structure TProfile where
  executors : String
deriving DecidableEq, Repr

/-- The canonical agent returned by `contact_svc.handle_heartbeat`. -/
structure TAgent where
  paw : String
deriving DecidableEq, Repr

/-- A registry entry (`plugins.manx.app.c_session.Session` is outside this
tree; per the spec a Session is `{id, paw, transport handle}`, and only id
and paw are observed by these claims). -/
structure TSession where
  sid : Int
  paw : String
deriving DecidableEq, Repr

/-- Python `s.split(sep)` for a one-character separator, over the
character list: `""` maps to `[""]` and empty segments between
consecutive separators are kept. -/
def pySplitAux (sep : Char) : List Char → List (List Char)
  | [] => [[]]
  | c :: rest =>
    match pySplitAux sep rest with
    | [] => [[]]
    | seg :: segs => if c == sep then [] :: seg :: segs else (c :: seg) :: segs

/-- Python `s.split(sep)` on strings. -/
def pySplit (s : String) (sep : Char) : List String :=
  (pySplitAux sep s.data).map (fun cs => String.mk cs)

/-- Embeds `profile[\x27executors\x27] = [e for e in profile[\x27executors\x27].split(\x27,\x27) if e]`
(src/app/contacts/contact_tcp.py, accept): the Python truthiness filter
`if e` keeps exactly the non-empty segments. -/
def splitExecutors (s : String) : List String :=
  (pySplit s ',').filter (fun e => e ≠ "")

/-- Embeds `TcpSessionHandler.accept` (src/app/contacts/contact_tcp.py,
lines 70-91). A handshake failure (`except Exception`) returns with the
registry untouched. On success the profile is normalized, forwarded to the
heartbeat collaborator (modelled as the function `heartbeat` from the
normalized executor list to the canonical agent), one `Session` object is
constructed — and then the source appends it to `self.sessions` and sends
the liveness probe TWICE: the block
`self.sessions.append(new_session); await self.send(...)` appears verbatim
a second time under the comment `### This remains the same ###`. `send`
never mutates the registry, so only the two appends are visible here. -/
def accept (handshake : Except String TProfile) (heartbeat : List String → TAgent)
    (genId : Int) (sessions : List TSession) : List TSession :=
  match handshake with
  | .error _ => sessions
  | .ok profile =>
    let execs := splitExecutors profile.executors
    let agent := heartbeat execs
    let new_session : TSession := ⟨genId, agent.paw⟩
    let sessions1 := sessions ++ [new_session]
    let sessions2 := sessions1 ++ [new_session]
    sessions2

/-- A registry entry as seen by `refresh`, together with the outcome of
this sweep's probe write on its transport handle. Modelled from the spec:
the Session's transport handle lives in `plugins.manx` outside this tree;
per the spec the probe write either succeeds or fails, and a failure
surfaces as `socket.error`. -/
structure RSession where
  sid : Int
  probeOk : Bool
deriving DecidableEq, Repr

/-- Embeds the `while index < len(self.sessions)` loop of
`TcpSessionHandler.refresh` (src/app/contacts/contact_tcp.py, lines 56-68):
`done` holds the entries before `index` (already probed, kept), `todo` the
entries from `index` on. Each iteration probes `sessions[index]` once; on
`socket.error` the entry is deleted in place (`del self.sessions[index]`,
so `index` now points at the next entry), otherwise `index += 1`. The
second component is the ghost log of probed session ids in order. -/
def refreshLoop : List RSession → List RSession → List Int → List RSession × List Int
  | done, [], probes => (done, probes)
  | done, s :: rest, probes =>
    if s.probeOk then
      refreshLoop (done ++ [s]) rest (probes ++ [s.sid])
    else
      refreshLoop done rest (probes ++ [s.sid])

/-- The sweep `TcpSessionHandler.refresh` run over the whole registry. -/
def refresh (sessions : List RSession) : List RSession × List Int :=
  refreshLoop [] sessions []

/-- A decoded response frame `{status, pwd, response, agent_reported_time?}`. -/
structure RespFrame where
  status : Int
  pwd : String
  response : String
  agent_reported_time : Option String
deriving DecidableEq, Repr

/-- Python `str(e)` for the `AttributeError` raised by `reader.read` when
`reader` is the `Ellipsis` placeholder (`reader = ...`). -/
def ellipsisReadErr : String := "\x27ellipsis\x27 object has no attribute \x27read\x27"

/-- Embeds `TcpSessionHandler._attempt_connection`
(src/app/contacts/contact_tcp.py, lines 121-150). The active code sets
`reader = ...` (the Ellipsis placeholder — the commented-out socket code
above it is dead), so `reader.read(4096)` raises `AttributeError` before
any peer data is read or any timeout can start; the
`except Exception as e` branch returns
`json.dumps(dict(status=1, pwd=\x27~$ \x27, response=str(e)))`. `send`
immediately `json.loads` this string; the embedding carries the decoded
frame (the dict has no `agent_reported_time` key). The peer's reply and
the timeout are parameters only to record that the source never consumes
them. -/
def attemptConnection (_peerData : String) (_timeout : Nat) : RespFrame :=
  { status := 1, pwd := "~$ ", response := ellipsisReadErr, agent_reported_time := none }

/-- Outcome of one `writer.write(..)` + `await writer.drain()` pair: either
it returns, or it raises a socket error with message `msg`. -/
inductive WriteRes
  | ok
  | socketError (msg : String)
deriving DecidableEq, Repr

/-- The transport environment of one `send` call: the outcomes of the two
writes (probe byte, then `cmd + "\n"`) and the bytes the peer would send
back. -/
structure SendEnv where
  probeWrite : WriteRes
  cmdWrite : WriteRes
  peerData : String
deriving Repr

/-- Embeds `TcpSessionHandler.send(session_id, cmd, timeout)`
(src/app/contacts/contact_tcp.py, lines 93-114). Inside the `try`:
`next(i.writer for i in self.sessions if i.id == int(session_id))` raises
`StopIteration` when no registered session matches (Python
`str(StopIteration())` is the empty string); each write may raise a socket
error; `_attempt_connection` returns the failure-frame JSON text which
`json.loads` decodes back; the returned tuple takes
`response.get(\x27agent_reported_time\x27, \x27\x27)` for the last slot.
Every raised exception is caught by the single `except Exception as e`
which returns `(1, \x27~$ \x27, str(e), \x27\x27)` — `send` never raises
to its caller. -/
def send (sessions : List TSession) (session_id : Int) (_cmd : String)
    (timeout : Nat) (env : SendEnv) : Int × String × String × String :=
  let attempt : Except String RespFrame := do
    let _s ← match sessions.find? (fun i => i.sid == session_id) with
      | some s => Except.ok s
      | none => Except.error ""
    let _ ← match env.probeWrite with
      | .ok => Except.ok ()
      | .socketError m => Except.error m
    let _ ← match env.cmdWrite with
      | .ok => Except.ok ()
      | .socketError m => Except.error m
    Except.ok (attemptConnection env.peerData timeout)
  match attempt with
  | .ok f => (f.status, f.pwd, f.response, f.agent_reported_time.getD "")
  | .error e => (1, "~$ ", e, "")

/-! ## IP fact parser (src/app/learning/p_ip.py)

The parser runs `re.findall(r"\b\d\x7b1,3\x7d\.\d\x7b1,3\x7d\.\d\x7b1,3\x7d\.\d\x7b1,3\x7d\b", blob)`
and yields a Fact for each match passing `_is_valid_ip`. The embedding
treats the ASCII fragment of the pattern classes (`\d` as `0`-`9`, `\w` as
ASCII alphanumeric or underscore); non-ASCII digit characters could only
add regex matches that `ipaddress.ip_address` rejects anyway, so they never
contribute a Fact. -/

/-- Python `\w` on the ASCII fragment: letter, digit or underscore. -/
def isWordChar (c : Char) : Bool := c.isAlphanum || c == '_'

/-- The leading `\b` of the pattern: since the first pattern atom is `\d`
(a word character), the boundary holds iff the preceding character (if
any) is not a word character. -/
def boundaryBefore (prev : Option Char) : Bool :=
  match prev with
  | none => true
  | some p => !isWordChar p

/-- The trailing `\b`: the matched text ends in a digit, so the boundary
holds iff the input ends there or continues with a non-word character. -/
def boundaryAfter (rest : List Char) : Bool :=
  match rest with
  | [] => true
  | c :: _ => !isWordChar c

/-- One `\d\x7b1,3\x7d` group followed by a mandatory non-digit pattern
atom. The greedy group must cover the whole maximal digit run: stopping
short would leave a digit where the following atom (`.` or `\b`) must
match, and the engine's backtracking can never recover, so the group
matches iff the run has length 1-3. Returns the run and the rest. -/
def octetRun (cs : List Char) : Option (List Char × List Char) :=
  let r := cs.takeWhile Char.isDigit
  if 1 ≤ r.length ∧ r.length ≤ 3 then some (r, cs.dropWhile Char.isDigit)
  else none

/-- A literal `.` of the pattern. -/
def expectDot : List Char → Option (List Char)
  | '.' :: rest => some rest
  | _ => none

/-- Attempt the whole pattern at the current position (`prev` is the
character just before it). On success returns the matched text and the
remaining input. -/
def tryMatch (cs : List Char) (prev : Option Char) : Option (String × List Char) := do
  guard (boundaryBefore prev)
  let (o1, r1) ← octetRun cs
  let r1d ← expectDot r1
  let (o2, r2) ← octetRun r1d
  let r2d ← expectDot r2
  let (o3, r3) ← octetRun r2d
  let r3d ← expectDot r3
  let (o4, r4) ← octetRun r3d
  guard (boundaryAfter r4)
  some (String.mk (o1 ++ '.' :: o2 ++ '.' :: o3 ++ '.' :: o4), r4)

/-- Python `re.findall` scanning: try the pattern at each position left to right;
on a match, emit it and continue right after it (matches never overlap),
otherwise advance one character. `prev` tracks the character before the
current position for the `\b` checks. `fuel` only bounds the recursion:
every step consumes at least one character, and the scan starts with
`fuel = cs.length + 1`, so the fuel never runs out before the input does. -/
def scanIps (fuel : Nat) (cs : List Char) (prev : Option Char) : List String :=
  match fuel, cs with
  | 0, _ => []
  | _ + 1, [] => []
  | fuel + 1, c :: rest =>
    match tryMatch (c :: rest) prev with
    | some (ip, remaining) => ip :: scanIps fuel remaining (some (ip.data.getLastD c))
    | none => scanIps fuel rest (some c)

/-- Python `re.findall(pattern, blob)` for the IPv4 pattern. -/
def findIps (blob : String) : List String :=
  scanIps (blob.data.length + 1) blob.data none

/-- Numeric value of a digit run (Python `int` on the octet text). -/
def digitsToNat (cs : List Char) : Nat :=
  cs.foldl (fun n c => 10 * n + (c.toNat - '0'.toNat)) 0

/-- One dotted-quad octet as accepted by `ipaddress.IPv4Address`: one to
three ASCII digits, no leading zero unless the octet is exactly "0", and
value at most 255. -/
def octetValid (o : String) : Bool :=
  1 ≤ o.length && o.length ≤ 3 && o.data.all Char.isDigit &&
  (o.length == 1 || o.data.headD '0' != '0') &&
  digitsToNat o.data ≤ 255

/-- The hardcoded denylist of `Parser._is_valid_ip`. -/
def denylist : List String := ["0.0.0.0", "127.0.0.1", "255.255.0.0"]

/-- Embeds `Parser._is_valid_ip(raw_ip)` (src/app/learning/p_ip.py):
`False` for the three denylisted addresses; otherwise `True` iff
`ipaddress.ip_address(raw_ip)` does not raise `ValueError`. For the
regex-shaped inputs reaching this check (digits and dots only), Python's
`ip_address` accepts exactly four dot-separated octets each valid per
`octetValid`. -/
def is_valid_ip (raw_ip : String) : Bool :=
  if denylist.contains raw_ip then false
  else
    match pySplit raw_ip '.' with
    | [a, b, c, d] => octetValid a && octetValid b && octetValid c && octetValid d
    | _ => false

/-- A fact `{trait, value}` (`app.objects.secondclass.c_fact.Fact`). -/
structure Fact where
  trait : String
  value : String
deriving DecidableEq, Repr

/-- Embeds `Parser.parse(blob)` (src/app/learning/p_ip.py, lines 15-29):
for each regex match, yield `Fact(trait=\x27host.ip.address\x27, value=ip)`
when `_is_valid_ip(ip)` holds. -/
def parse (blob : String) : List Fact :=
  (findIps blob).filterMap (fun ip =>
    if is_valid_ip ip then some { trait := "host.ip.address", value := ip } else none)

/-- Spec-side: one decimal component of a dotted-quad literal — one to
three digits, no leading zero (unless the component is exactly "0"), and
value at most 255. -/
def ipv4ComponentOk (o : String) : Bool :=
  o.length ≥ 1 && o.length ≤ 3 && o.data.all Char.isDigit &&
  (o.length == 1 || o.data.headD '0' != '0') &&
  digitsToNat o.data ≤ 255

/-- Spec-side characterization, independent of the parser's plumbing: a
syntactically valid dotted-quad IPv4 literal — exactly four dot-separated
decimal components, each valid per `ipv4ComponentOk`. -/
def isValidIPv4Literal (s : String) : Bool :=
  match pySplit s '.' with
  | [a, b, c, d] =>
    ipv4ComponentOk a && ipv4ComponentOk b && ipv4ComponentOk c && ipv4ComponentOk d
  | _ => false

/-! ## Concrete scenarios -/

/-- Adversary with `atomic_ordering = ["A", "B", "C"]`. -/
def ordABC : List String := ["A", "B", "C"]

def linkA : Link := ⟨⟨"A"⟩⟩

def linkC : Link := ⟨⟨"C"⟩⟩

/-- Candidate links always include abilities A and C but never B. -/
def candsAC : String → List Link := fun _ => [linkA, linkC]

/-- Candidate links only ever include ability C. -/
def candsOnlyC : String → List Link := fun _ => [linkC]

/-- C1 scenario, invocation 1: a single agent "p" starting at cursor 0. -/
def c1inv1 : BucketOut := pentatomicBucket ordABC [⟨"p"⟩] candsAC [("p", 0)] (some "pentatomic")

def c1inv2 : BucketOut := pentatomicBucket ordABC [⟨"p"⟩] candsAC c1inv1.steps c1inv1.next_bucket

def c1inv3 : BucketOut := pentatomicBucket ordABC [⟨"p"⟩] candsAC c1inv2.steps c1inv2.next_bucket

def c1inv4 : BucketOut := pentatomicBucket ordABC [⟨"p"⟩] candsAC c1inv3.steps c1inv3.next_bucket

/-- C4 scenario: one bucket invocation, ordering A,B,C, candidates only C. -/
def c4out : BucketOut := pentatomicBucket ordABC [⟨"p"⟩] candsOnlyC [("p", 0)] (some "pentatomic")

/-- C5 scenario, iteration 1: ordering ["A"]; agent "x" has no candidates
(its cursor exhausts and is dropped) while agent "y" has ability A and
keeps the operation alive. -/
def c5links1 : String → List Link := fun p => if p == "y" then [linkA] else []

/-- C5 scenario, iteration 2: ability A has become available to agent "x". -/
def c5links2 : String → List Link := fun p => if p == "x" then [linkA] else []

def c5inv1 : BucketOut :=
  pentatomicBucket ["A"] [⟨"x"⟩, ⟨"y"⟩] c5links1 [("x", 0), ("y", 0)] (some "pentatomic")

def c5inv2 : BucketOut :=
  pentatomicBucket ["A"] [⟨"x"⟩, ⟨"y"⟩] c5links2 c5inv1.steps c5inv1.next_bucket

/-- Whether a list of successively stored values never decreases. -/
def nonDecreasing : List Nat → Bool
  | [] => true
  | [_] => true
  | a :: b :: rest => a ≤ b && nonDecreasing (b :: rest)

/-- The wire bytes of the peer reply from the claim,
`\x7b"status":0,"pwd":"C:\\>","response":"nt\\system"\x7d` (the doubled
backslashes are the JSON escapes present in the wire text). -/
def c2peerReply : String :=
  "\x7b\"status\":0,\"pwd\":\"C:\\\\>\",\"response\":\"nt\\\\system\"\x7d"

/-! ## Theorems -/

/-- C1. The spec claims: with `atomic_ordering = [A,B,C]` and candidates
always `{A,C}`, the bucket selects A (cursor→1), then skips B and selects
C with the cursor advancing to 3, and the following invocation applies
nothing and terminates. On the code, invocation 1 selects A and stores
cursor 1; invocation 2 skips B (storing 2 during the search), selects C —
but then `pentatomic` assigns `agent_steps[paw] = step + 1` from the stale
`step = 1` read before the search, leaving the cursor at 2, not 3; so
invocation 3 selects C a second time (cursor→3) and only invocation 4
applies nothing and terminates. -/
theorem C1_atomic_trace_on_code :
    c1inv1.applied = [("p", linkA)] ∧ dictGetD c1inv1.steps "p" 0 = 1 ∧ c1inv1.waited = true
    ∧ c1inv2.applied = [("p", linkC)] ∧ dictGetD c1inv2.steps "p" 0 = 2
    ∧ dictGetD c1inv2.steps "p" 0 ≠ 3 ∧ c1inv2.waited = true
    ∧ c1inv3.applied = [("p", linkC)] ∧ dictGetD c1inv3.steps "p" 0 = 3
    ∧ c1inv4.applied = [] ∧ c1inv4.next_bucket = none ∧ c1inv4.waited = false := by
  decide

/-- C4. The spec claims per-agent cursors are monotonically non-decreasing
within one operation. On the code, with ordering [A,B,C] and candidates
{C}, one bucket invocation assigns the cursor values 1, 2 (skip-ahead
search) and then 1 again (the post-apply write from the stale step), a
strictly smaller value than the 2 previously stored. -/
theorem C4_cursor_write_regresses :
    c4out.writes = [("p", 1), ("p", 2), ("p", 1)]
    ∧ nonDecreasing (c4out.writes.map Prod.snd) = false
    ∧ dictGetD c4out.steps "p" 0 = 1 := by
  decide

/-- C5 counterexample. Agent "x" exhausts the ordering in iteration 1 (no
link, cursor tracking dropped from the map) while agent "y" applies a link
so the bucket repeats; in iteration 2 agent "x" is considered again, its
cursor read defaults to 0, and it applies ability A — refuting "it is
never again considered for link selection for the remainder of the
operation". -/
theorem C5_dropped_agent_reconsidered :
    c5inv1.applied = [("y", linkA)]
    ∧ c5inv1.steps.find? (fun q => q.1 == "x") = none
    ∧ c5inv1.next_bucket = some "pentatomic"
    ∧ c5inv2.applied = [("x", linkA)] := by
  decide

/-- After `d.pop(k, None)` the key `k` is absent from the map. -/
theorem find?_dictPop (d : StepsMap) (k : String) :
    (dictPop d k).find? (fun q => q.1 == k) = none := by
  rw [List.find?_eq_none]
  intro x hx
  rw [dictPop, List.mem_filter] at hx
  simpa using hx.2

/-- After `d.pop(k, None)`, `d.get(k, 0)` falls back to the default 0. -/
theorem dictGetD_dictPop (d : StepsMap) (k : String) :
    dictGetD (dictPop d k) k 0 = 0 := by
  unfold dictGetD
  rw [find?_dictPop]

/-- C5 as amended: an agent whose cursor search ends without a match
contributes no applied link in that turn and its cursor tracking is
dropped from the map; but since the next turn reads the cursor with
`agent_steps.get(paw, 0)`, a dropped agent is considered again in any
later iteration, restarting from cursor 0. -/
theorem C5_exhausted_agent_dropped_and_restarts (ordering : List String)
    (getLinks : String → List Link) (acc : BucketAcc) (agent : PAgent)
    (h : (getNextAtomicLink ordering (getLinks agent.paw) agent.paw
            (dictGetD acc.steps agent.paw 0) acc.steps).link = none) :
    (processAgent ordering getLinks acc agent).applied = acc.applied
    ∧ (processAgent ordering getLinks acc agent).steps.find? (fun q => q.1 == agent.paw) = none
    ∧ dictGetD (processAgent ordering getLinks acc agent).steps agent.paw 0 = 0 := by
  simp only [processAgent, h]
  exact ⟨trivial, find?_dictPop _ _, dictGetD_dictPop _ _⟩

/-- Witness for C5's amended theorem at a concrete input. -/
theorem C5_exhausted_agent_witness :
    (getNextAtomicLink ["A"] ((fun _ => []) "x") "x"
        (dictGetD ([("x", 0)] : StepsMap) "x" 0) [("x", 0)]).link = none
    ∧ ((processAgent ["A"] (fun _ => []) ⟨[("x", 0)], [], []⟩ ⟨"x"⟩).applied = []
       ∧ (processAgent ["A"] (fun _ => []) ⟨[("x", 0)], [], []⟩ ⟨"x"⟩).steps.find?
           (fun q => q.1 == "x") = none
       ∧ dictGetD (processAgent ["A"] (fun _ => []) ⟨[("x", 0)], [], []⟩ ⟨"x"⟩).steps "x" 0 = 0) :=
  ⟨by decide,
   C5_exhausted_agent_dropped_and_restarts ["A"] (fun _ => []) ⟨[("x", 0)], [], []⟩ ⟨"x"⟩ (by decide)⟩

/-- C7. A bucket invocation entered with the bucket scheduled leaves
`next_bucket` unset iff no links were applied across all agents; and with
zero agents the invocation applies nothing, does not wait, and terminates
the planner. -/
theorem C7_terminates_iff_no_links_applied (ordering : List String)
    (agents : List PAgent) (getLinks : String → List Link) (steps0 : StepsMap) :
    ((pentatomicBucket ordering agents getLinks steps0 (some "pentatomic")).next_bucket = none
      ↔ (pentatomicBucket ordering agents getLinks steps0 (some "pentatomic")).applied = [])
    ∧ pentatomicBucket ordering [] getLinks steps0 (some "pentatomic")
        = ⟨steps0, [], [], none, false⟩ := by
  constructor
  · unfold pentatomicBucket
    set acc := agents.foldl (processAgent ordering getLinks) ⟨steps0, [], []⟩ with hacc
    by_cases he : acc.applied.isEmpty
    · simp [he, List.isEmpty_iff.mp he]
    · simp [he]
      intro hnil
      exact he (by simp [hnil])
  · unfold pentatomicBucket
    simp

/-- C2. The spec claims that against a registered session whose peer
replies with `\x7b"status":0,"pwd":"C:\\>","response":"nt\\system"\x7d`,
`send` returns `(0, "C:\\>", "nt\\system", "")`. On the code, even with
both writes succeeding and that exact reply available, `send` returns the
failure tuple carrying the `AttributeError` text: `_attempt_connection`
leaves `reader = ...` (the Ellipsis placeholder), so the peer reply is
never read. -/
theorem C2_send_never_reads_reply :
    send [⟨42, "p1"⟩] 42 "whoami" 5 ⟨WriteRes.ok, WriteRes.ok, c2peerReply⟩
      = (1, "~$ ", ellipsisReadErr, "")
    ∧ send [⟨42, "p1"⟩] 42 "whoami" 5 ⟨WriteRes.ok, WriteRes.ok, c2peerReply⟩
      ≠ ((0 : Int), "C:\\>", "nt\\system", "") := by
  exact ⟨by decide, by decide⟩

/-- C3. The spec claims exactly one Session is created and exactly one
registry entry is added per successful handshake. On the code, `accept`
constructs one Session object but the `self.sessions.append(new_session)`
line (with its liveness `send`) appears twice, so every successful
handshake adds two identical entries to the registry. -/
theorem C3_accept_registers_twice :
    (∀ (p : TProfile) (hb : List String → TAgent) (gid : Int) (ss : List TSession),
      accept (Except.ok p) hb gid ss
        = ss ++ [⟨gid, (hb (splitExecutors p.executors)).paw⟩,
                 ⟨gid, (hb (splitExecutors p.executors)).paw⟩]
      ∧ (accept (Except.ok p) hb gid ss).length = ss.length + 2)
    ∧ accept (Except.ok ⟨"psh,cmd"⟩) (fun _ => ⟨"p1"⟩) 123456 []
        = [⟨123456, "p1"⟩, ⟨123456, "p1"⟩] := by
  refine ⟨fun p hb gid ss => ⟨?_, ?_⟩, rfl⟩
  · simp [accept]
  · simp [accept]

/-- C6. For every registry, session id, command, timeout and transport
environment — covering the unregistered-id, socket-error, malformed-JSON
and timeout failure modes — `send` returns a tuple of the failure shape
`(1, "~$ ", <stringified error>, "")`. The embedding is a total function:
the source's single `except Exception` hands every raised exception back
as this tuple, so `send` never raises to its caller. -/
theorem C6_send_always_failure_shape (sessions : List TSession) (sid : Int)
    (cmd : String) (timeout : Nat) (env : SendEnv) :
    (send sessions sid cmd timeout env).1 = 1
    ∧ (send sessions sid cmd timeout env).2.1 = "~$ "
    ∧ (send sessions sid cmd timeout env).2.2.2 = "" := by
  unfold send
  cases sessions.find? (fun i => i.sid == sid) <;>
    cases env.probeWrite <;>
    cases env.cmdWrite <;>
    exact ⟨rfl, rfl, rfl⟩

/-- Auxiliary invariant of the `refresh` while loop: the final registry is
the kept part plus the probe-surviving part of the unvisited suffix, and
every unvisited entry gets probed exactly once, in order. -/
theorem refreshLoop_spec (todo : List RSession) :
    ∀ (done : List RSession) (probes : List Int),
      refreshLoop done todo probes
        = (done ++ todo.filter (fun s => s.probeOk), probes ++ todo.map (fun s => s.sid)) := by
  induction todo with
  | nil => intro done probes; simp [refreshLoop]
  | cons s rest ih =>
    intro done probes
    by_cases hp : s.probeOk
    · rw [refreshLoop, if_pos hp, ih]
      simp [hp]
    · rw [refreshLoop, if_neg hp, ih]
      simp [hp]

/-- C8. One refresh sweep probes every registered entry exactly once (the
probe log lists each registered session id once, in registry order), and
the registry afterwards holds exactly the entries whose probe write
succeeded: each failing entry is removed, exactly once, and every
surviving entry's probe succeeded. -/
theorem C8_refresh_probes_once_and_filters (sessions : List RSession) :
    refresh sessions
      = (sessions.filter (fun s => s.probeOk), sessions.map (fun s => s.sid)) := by
  rw [refresh, refreshLoop_spec]
  simp

/-- C10. Executor normalization `[e for e in executors.split(",") if e]`
keeps exactly the non-empty comma-separated segments, in their original
order: the result is the empties-removed filtering of the split (a sublist
of it, every element non-empty); "psh,,cmd" yields ["psh", "cmd"] and the
empty string yields the empty list. -/
theorem C10_split_drops_empty_segments (s : String) :
    splitExecutors s = (pySplit s ',').filter (fun e => !e.isEmpty)
    ∧ (splitExecutors s).Sublist (pySplit s ',')
    ∧ (splitExecutors s).all (fun e => !e.isEmpty) = true
    ∧ splitExecutors "psh,,cmd" = ["psh", "cmd"]
    ∧ splitExecutors "" = [] := by
  have hfe : ∀ e : String, (decide (e ≠ "")) = !e.isEmpty := by
    intro e
    cases hbe : e.isEmpty with
    | true =>
      have he : e = "" := (String.isEmpty_iff e).mp hbe
      simp [he]
    | false =>
      have hne : e ≠ "" := by
        intro h
        have ht : e.isEmpty = true := (String.isEmpty_iff e).mpr h
        rw [hbe] at ht
        exact Bool.false_ne_true ht
      simp [hne]
  refine ⟨?_, ?_, ?_, by decide, by decide⟩
  · unfold splitExecutors
    exact List.filter_congr (fun x _ => hfe x)
  · exact List.filter_sublist _
  · rw [List.all_eq_true]
    intro e he
    rw [splitExecutors, List.mem_filter] at he
    rw [← hfe e]
    exact he.2

/-- Every value passing `_is_valid_ip` is a syntactically valid dotted-quad
IPv4 literal and is not on the denylist. -/
theorem valid_of_is_valid_ip (s : String) (h : is_valid_ip s = true) :
    isValidIPv4Literal s = true ∧ s ∉ denylist := by
  unfold is_valid_ip at h
  by_cases hd : denylist.contains s
  · rw [if_pos hd] at h
    cases h
  · rw [if_neg hd] at h
    refine ⟨h, ?_⟩
    intro hm
    have ht : denylist.contains s = true := by
      unfold List.contains
      exact List.elem_iff.mpr hm
    exact hd ht

/-- C9. Every Fact yielded by the IP parser carries the trait
`host.ip.address` and a value that is a syntactically valid IPv4 literal
and is none of the denylisted addresses; parsing is a pure function, so
parsing the same blob twice yields the identical sequence; and a blob with
no valid address (here one whose only dotted-quad token has out-of-range
octets) yields the empty sequence — the embedding is total, so no input
raises. -/
theorem C9_ip_facts_valid :
    (∀ (blob : String) (f : Fact), f ∈ parse blob →
      f.trait = "host.ip.address" ∧ isValidIPv4Literal f.value = true ∧ f.value ∉ denylist)
    ∧ (∀ blob : String, parse blob = parse blob)
    ∧ parse "999.999.999.999 not-an-ip" = [] := by
  refine ⟨?_, fun _ => rfl, by decide⟩
  intro blob f hf
  rw [parse, List.mem_filterMap] at hf
  obtain ⟨ip, _, heq⟩ := hf
  by_cases hv : is_valid_ip ip
  · rw [if_pos hv, Option.some_inj] at heq
    subst heq
    exact ⟨rfl, valid_of_is_valid_ip ip hv⟩
  · rw [if_neg hv] at heq
    cases heq

/-- Witness for C9's universally quantified part at a concrete blob and
fact. -/
theorem C9_ip_facts_witness :
    (⟨"host.ip.address", "10.1.2.3"⟩ : Fact) ∈ parse "srv 10.1.2.3 up"
    ∧ ((⟨"host.ip.address", "10.1.2.3"⟩ : Fact).trait = "host.ip.address"
       ∧ isValidIPv4Literal (⟨"host.ip.address", "10.1.2.3"⟩ : Fact).value = true
       ∧ (⟨"host.ip.address", "10.1.2.3"⟩ : Fact).value ∉ denylist) :=
  ⟨by decide, C9_ip_facts_valid.1 "srv 10.1.2.3 up" ⟨"host.ip.address", "10.1.2.3"⟩ (by decide)⟩

end Caldera
